import Mathlib

/-!
Verification development for the SFIM_Blockchain repository.

Shallow embedding of:
- `backend/merkle.py` (domain-separated SHA-512 Merkle tree: `merkle_root`,
  `merkle_proof`, `verify_proof`);
- `backend/consensus.py` (`PBFTNode`: `handle_message`, `handle_pre_prepare`,
  `handle_prepare`, `handle_commit`, `required_votes`, `is_primary`, and the
  mock branch of `BLSManager`);
- `backend/tpm_attest.py` (`TPMManager.verify_quote`, `get_node_trust_level`);
- `backend/node.py` (the module-level consensus path: `initiate_consensus`
  and its `BLSManager.sign`).

Modelling conventions.
Byte strings are modelled by the inductive type `Bytes`: `Bytes.raw` is a
literal byte string, `Bytes.cat` is concatenation treated as unambiguous
framing, and `Bytes.sha512` / `Bytes.sha256` are the images of the hash calls
in the source, treated as free (collision-free, injective) constructors over
the byte string fed to the hasher.  This is the standard idealization of a
cryptographic hash; all functions stay computable and decidable.
Hex-digest-valued signatures (Python `hashlib.sha256(...).hexdigest()`)
are modelled in the `String` world by the injective wrapper `sha256hex`.
Python `int` indices are modelled by `Int`; Python's floor division `//` and
modulo `%` are `Int.fdiv` / `Int.fmod`; Python list indexing (including
negative indices and `IndexError`) is `pyGet`, returning `none` exactly when
Python raises. Functions whose Python body can raise return `Option`.
`while` loops over tree levels are written as fuelled recursions whose fuel is
the initial level length; each iteration strictly shrinks the level, and a
level of length `L` is reduced to length 1 in at most `L - 1` iterations, so
the fuel is never exhausted and the recursion computes exactly the source loop.
Wall-clock reads (`time.time()`) are modelled as an explicit `clock` field /
`now` argument.
-/

/-- Byte strings with idealized hashing: `raw` literals, `cat` concatenation
(unambiguous framing), and the SHA-512 / SHA-256 calls of the source as free
constructors over the hashed byte string. -/
inductive Bytes where
  | raw : List Nat → Bytes
  | cat : Bytes → Bytes → Bytes
  | sha512 : Bytes → Bytes
  | sha256 : Bytes → Bytes
deriving DecidableEq, Repr

/-- `merkle.py` line 16: `hash_leaf(data) = SHA512(0x00 || data)`; the
one-byte leaf domain tag `b'\x00'` is `raw [0]`. -/
def hash_leaf (data : Bytes) : Bytes :=
  Bytes.sha512 (Bytes.cat (Bytes.raw [0]) data)

/-- `merkle.py` line 21: `hash_node(l, r) = SHA512(0x01 || l || r)`; the
one-byte node domain tag `b'\x01'` is `raw [1]`. -/
def hash_node (left right : Bytes) : Bytes :=
  Bytes.sha512 (Bytes.cat (Bytes.raw [1]) (Bytes.cat left right))

/-- Python list indexing `l[i]`: non-negative indices in range, negative
indices counted from the end, `none` exactly where Python raises IndexError. -/
def pyGet {α : Type} (l : List α) (i : Int) : Option α :=
  if 0 ≤ i then l.get? i.toNat
  else if -(l.length : Int) ≤ i then l.get? (i + l.length).toNat
  else none

/-- One pass of the level-building loop shared by `merkle_root` (lines 36-42)
and `merkle_proof` (lines 63-68): adjacent pairs are hashed left-to-right and
a trailing unpaired element is promoted unchanged. -/
def pairUp : List Bytes → List Bytes
  | [] => []
  | [x] => [x]
  | x :: y :: rest => hash_node x y :: pairUp rest

/-- The `while len(current_level) > 1` loop of `merkle_root` (lines 35-42),
fuelled by the initial level length (a strict bound on the iteration count). -/
def rootLoop : Nat → List Bytes → List Bytes
  | 0, level => level
  | fuel + 1, level =>
    if level.length ≤ 1 then level else rootLoop fuel (pairUp level)

/-- `merkle.py` lines 26-44: `merkle_root`.  The empty sequence maps to the
empty byte string `b''` (`raw []`); otherwise the leaf level is reduced and
`current_level[0] if current_level else b''` is returned. -/
def merkle_root (leaves : List Bytes) : Bytes :=
  if leaves.isEmpty then Bytes.raw []
  else (rootLoop leaves.length (leaves.map hash_leaf)).headD (Bytes.raw [])

/-- The `while len(current_level) > 1` loop of `merkle_proof` (lines 56-71),
fuelled by the initial level length.  Per iteration: an even index appends the
right sibling when one exists (`current_index + 1 < len`), an odd index
appends the left sibling; sibling reads use Python indexing (`pyGet`), and
`none` marks the IndexError Python raises on an out-of-range read.  Then the
level is paired up and the index floor-halved (`//= 2`). -/
def proofLoop : Nat → List Bytes → Int → List Bytes → Option (List Bytes)
  | 0, _, _, acc => some acc
  | fuel + 1, level, idx, acc =>
    if level.length ≤ 1 then some acc
    else
      let step : Option (List Bytes) :=
        if Int.fmod idx 2 = 0 then
          if idx + 1 < (level.length : Int) then
            (pyGet level (idx + 1)).map (fun s => acc ++ [s])
          else some acc
        else (pyGet level (idx - 1)).map (fun s => acc ++ [s])
      match step with
      | none => none
      | some acc2 => proofLoop fuel (pairUp level) (Int.fdiv idx 2) acc2

/-- `merkle.py` lines 47-73: `merkle_proof(leaves, index)`.  Returns `some []`
on the `if not leaves or index >= len(leaves)` guard, otherwise runs the level
loop from `[hash_leaf(leaf) for leaf in leaves]`; `none` is an IndexError. -/
def merkle_proof (leaves : List Bytes) (index : Int) : Option (List Bytes) :=
  if leaves.isEmpty ∨ (leaves.length : Int) ≤ index then some []
  else proofLoop leaves.length (leaves.map hash_leaf) index []

/-- The `for sibling in proof` loop of `verify_proof` (lines 81-86): even
current index hashes the sibling on the right, odd on the left, index
floor-halved each step. -/
def verifyLoop : Bytes → Int → List Bytes → Bytes
  | h, _, [] => h
  | h, i, s :: rest =>
    verifyLoop (if Int.fmod i 2 = 0 then hash_node h s else hash_node s h)
      (Int.fdiv i 2) rest

/-- `merkle.py` lines 76-88: `verify_proof(leaf, proof, root, index)`.  Total:
the source loop performs no list indexing, so no exception can occur. -/
def verify_proof (leaf : Bytes) (proof : List Bytes) (root : Bytes)
    (index : Int) : Bool :=
  verifyLoop (hash_leaf leaf) index proof == root

/-- The three-leaf sequence of spec scenario S1: preimages `"a"`, `"b"`,
`"c"` (bytes 97, 98, 99). -/
def threeLeaves : List Bytes := [Bytes.raw [97], Bytes.raw [98], Bytes.raw [99]]

/-- A two-leaf sequence used for the negative-index behaviour of
`merkle_proof`. -/
def twoLeaves : List Bytes := [Bytes.raw [10], Bytes.raw [11]]

/-- Association-list lookup, modelling Python `dict` access (`d[k]` /
`k in d`): first binding for the key, if any. -/
def alGet {κ α : Type} [DecidableEq κ] : List (κ × α) → κ → Option α
  | [], _ => none
  | (k, v) :: t, key => if k = key then some v else alGet t key

/-- Association-list lookup with a default, modelling the
`if k not in d: d[k] = []` then `d[k]` idiom. -/
def alGetD {κ α : Type} [DecidableEq κ] (l : List (κ × α)) (key : κ)
    (dflt : α) : α :=
  (alGet l key).getD dflt

/-- Association-list assignment, modelling Python `d[k] = v`: replaces the
binding in place or appends a new one. -/
def alSet {κ α : Type} [DecidableEq κ] : List (κ × α) → κ → α → List (κ × α)
  | [], key, v => [(key, v)]
  | (k, w) :: t, key, v =>
    if k = key then (key, v) :: t else (k, w) :: alSet t key v

/-- consensus.py lines 22-25: the `Phase` enum. -/
inductive Phase where
  | pre_prepare
  | prepare
  | commit
deriving DecidableEq

/-- The `.value` attribute of the `Phase` enum members. -/
def Phase.value : Phase → String
  | .pre_prepare => "pre_prepare"
  | .prepare => "prepare"
  | .commit => "commit"

/-- The `Phase(data["phase"])` constructor call in `handle_message`
(line 197): `none` is the `ValueError` swallowed by the handler's
`except` clause. -/
def parsePhase (s : String) : Option Phase :=
  if s = "pre_prepare" then some Phase.pre_prepare
  else if s = "prepare" then some Phase.prepare
  else if s = "commit" then some Phase.commit
  else none

/-- consensus.py lines 28-35: the `Message` dataclass. -/
structure Message where
  phase : Phase
  digest : String
  node_id : Nat
  signature : String
  timestamp : Nat
  view : Nat
deriving DecidableEq

/-- An inbound JSON consensus message as consumed by `handle_message`
(lines 193-210): the `Message` fields plus the `public_key` field read by the
signature check (`data.get("public_key", "")`). -/
structure WireMsg where
  phase : String
  digest : String
  node_id : Nat
  signature : String
  timestamp : Nat
  view : Nat
  public_key : String
deriving DecidableEq

/-- `hashlib.sha256(...).hexdigest()` over a string, modelled as an injective
formal wrapper (idealized collision-free hash in the `String` world). -/
def sha256hex (s : String) : String := "sha256(" ++ s ++ ")"

/-- consensus.py lines 49-56, mock branch of `BLSManager.sign`:
`sha256(private_key + message)` where the mock private key is the seed hex
string. -/
def mockSign (private_key msg : String) : String :=
  sha256hex (private_key ++ msg)

/-- consensus.py lines 58-70, mock branch of `BLSManager.verify`: the
signature is accepted iff it equals `sha256(public_key + message)`. -/
def mockVerify (public_key msg sig : String) : Bool :=
  sig == sha256hex (public_key ++ msg)

/-- consensus.py lines 85-114: the mutable state of a `PBFTNode`, plus the
fixed configuration from `__init__` (`node_id`, `total_nodes`, `peers`, the
BLS key material `sk`/`pk`) and the wall clock used for emitted timestamps. -/
structure PBFTNode where
  node_id : Nat
  total_nodes : Nat
  peers : List String
  view : Nat
  sequence_number : Nat
  current_digest : Option String
  prepare_messages : List (String × List Message)
  commit_messages : List (String × List Message)
  prepared_digests : List String
  committed_digests : List String
  sk : String
  pk : String
  clock : Nat
deriving DecidableEq

/-- consensus.py line 112: `single_node_mode = (total_nodes == 1 or
len(peers) == 0)`, recomputed from the immutable configuration. -/
def single_node_mode (n : PBFTNode) : Bool :=
  n.total_nodes == 1 || n.peers.isEmpty

/-- consensus.py lines 116-119: `is_primary` — `(view % total_nodes) ==
node_id`. -/
def is_primary (n : PBFTNode) : Bool :=
  n.view % n.total_nodes == n.node_id

/-- consensus.py lines 121-126: `required_votes` — 1 in single-node mode,
otherwise `(2 * ((total_nodes - 1) // 3)) + 1`. -/
def required_votes (n : PBFTNode) : Nat :=
  if single_node_mode n then 1 else 2 * ((n.total_nodes - 1) / 3) + 1

/-- Externally visible effects of a handler call: a message broadcast to the
peer connections (lines 178-191), or an invocation of `on_commit_callback`
with the digest and the accumulated COMMIT list (lines 283-284). -/
inductive Output where
  | sent : Message → Output
  | deliver : String → List Message → Output
deriving DecidableEq

/-- consensus.py line 207: the byte string
`f"{message.phase.value}:{message.digest}:{message.view}"` that
`handle_message` verifies inbound signatures against. -/
def phaseSigInput (m : Message) : String :=
  m.phase.value ++ ":" ++ m.digest ++ ":" ++ toString m.view

/-- consensus.py lines 266-284: `handle_commit`.  Appends the message to the
digest's COMMIT list; when the list reaches `required_votes` and the digest is
not yet committed, latches `committed` and fires the commit callback. -/
def handle_commit (n : PBFTNode) (m : Message) : PBFTNode × List Output :=
  let d := m.digest
  let msgs := alGetD n.commit_messages d [] ++ [m]
  let n1 := { n with commit_messages := alSet n.commit_messages d msgs }
  if required_votes n1 ≤ msgs.length ∧ d ∉ n1.committed_digests then
    ({ n1 with committed_digests := d :: n1.committed_digests },
      [Output.deliver d msgs])
  else (n1, [])

/-- `broadcast_message` (lines 163-191) at the `handle_prepare` call site,
where the argument is always a COMMIT: in single-node mode the message loops
back through `handle_message` — which skips signature verification and
dispatches on the phase, i.e. `handle_commit` — otherwise it is sent to the
peer connections. -/
def broadcast_commit (n : PBFTNode) (m : Message) : PBFTNode × List Output :=
  if single_node_mode n then handle_commit n m else (n, [Output.sent m])

/-- consensus.py lines 241-264: `handle_prepare`.  Appends the message to the
digest's PREPARE list; when the list reaches `required_votes` and the digest
is not yet prepared, latches `prepared`, constructs a COMMIT signed over
`f"commit:{digest}:{view}"`, and broadcasts it. -/
def handle_prepare (n : PBFTNode) (m : Message) : PBFTNode × List Output :=
  let d := m.digest
  let msgs := alGetD n.prepare_messages d [] ++ [m]
  let n1 := { n with prepare_messages := alSet n.prepare_messages d msgs }
  if required_votes n1 ≤ msgs.length ∧ d ∉ n1.prepared_digests then
    let n2 := { n1 with prepared_digests := d :: n1.prepared_digests }
    let cm : Message :=
      { phase := Phase.commit, digest := d, node_id := n.node_id,
        signature := mockSign n.sk ("commit:" ++ d ++ ":" ++ toString n.view),
        timestamp := n.clock, view := n.view }
    broadcast_commit n2 cm
  else (n1, [])

/-- `broadcast_message` at the `handle_pre_prepare` call site, where the
argument is always a PREPARE: single-node mode loops back into
`handle_prepare`, otherwise the message goes to the peer connections. -/
def broadcast_prepare (n : PBFTNode) (m : Message) : PBFTNode × List Output :=
  if single_node_mode n then handle_prepare n m else (n, [Output.sent m])

/-- consensus.py lines 222-239: `handle_pre_prepare`.  Source guard: `if not
self.single_node_mode and not self.is_primary and message.node_id !=
(self.view % self.total_nodes): return` — the message is dropped only when
the receiver is a multi-node backup AND the sender is not the view's primary.
Otherwise the digest is recorded and a PREPARE signed over
`f"prepare:{digest}:{view}"` is broadcast. -/
def handle_pre_prepare (n : PBFTNode) (m : Message) : PBFTNode × List Output :=
  if single_node_mode n = false ∧ is_primary n = false ∧
      m.node_id ≠ n.view % n.total_nodes then (n, [])
  else
    let n1 := { n with current_digest := some m.digest }
    let pm : Message :=
      { phase := Phase.prepare, digest := m.digest, node_id := n.node_id,
        signature :=
          mockSign n.sk ("prepare:" ++ m.digest ++ ":" ++ toString n.view),
        timestamp := n.clock, view := n.view }
    broadcast_prepare n1 pm

/-- consensus.py lines 193-220: `handle_message`.  Parses the phase (a bad
phase raises `ValueError`, swallowed by the `except`), skips signature
verification exactly in single-node mode, otherwise drops the message unless
`mockVerify(public_key, f"{phase}:{digest}:{view}", signature)` passes, then
dispatches to the phase handler.  No comparison against the replica's own
`view` occurs anywhere on this path. -/
def handle_message (n : PBFTNode) (w : WireMsg) : PBFTNode × List Output :=
  match parsePhase w.phase with
  | none => (n, [])
  | some ph =>
    let m : Message :=
      { phase := ph, digest := w.digest, node_id := w.node_id,
        signature := w.signature, timestamp := w.timestamp, view := w.view }
    if single_node_mode n = false ∧
        mockVerify w.public_key (phaseSigInput m) m.signature = false then
      (n, [])
    else
      match ph with
      | Phase.pre_prepare => handle_pre_prepare n m
      | Phase.prepare => handle_prepare n m
      | Phase.commit => handle_commit n m

/-- Fold a list of inbound messages through `handle_message`, keeping the
node state. -/
def applyWires (n : PBFTNode) (ws : List WireMsg) : PBFTNode :=
  ws.foldl (fun st w => (handle_message st w).1) n

/-- Blank out the signature field of a stored message (observation function
for signature-independence statements). -/
def eraseSig (m : Message) : Message := { m with signature := "" }

/-- Blank out the signature fields throughout a PREPARE/COMMIT tally map. -/
def eraseTally (l : List (String × List Message)) :
    List (String × List Message) :=
  l.map (fun kv => (kv.1, kv.2.map eraseSig))

/-- A `PBFTNode` state up to the signature strings recorded inside the
PREPARE/COMMIT tallies. -/
def erasePBFT (n : PBFTNode) : PBFTNode :=
  { n with
    prepare_messages := eraseTally n.prepare_messages,
    commit_messages := eraseTally n.commit_messages }

/-- An `Output` up to signature strings of carried messages. -/
def eraseOut : Output → Output
  | Output.sent m => Output.sent (eraseSig m)
  | Output.deliver d ms => Output.deliver d (ms.map eraseSig)

/-- Outputs up to signature strings of carried messages. -/
def eraseOuts (l : List Output) : List Output := l.map eraseOut

/-- A backup replica (node 1) of a 4-replica cluster in view 0, fresh state. -/
def nodeFour : PBFTNode :=
  { node_id := 1, total_nodes := 4, peers := ["n0", "n2", "n3"], view := 0,
    sequence_number := 0, current_digest := none, prepare_messages := [],
    commit_messages := [], prepared_digests := [], committed_digests := [],
    sk := "sk1", pk := "pk1", clock := 1000 }

/-- The primary replica (node 0) of the same 4-replica cluster in view 0. -/
def nodeFourPrimary : PBFTNode := { nodeFour with node_id := 0, sk := "sk0" }

/-- A replica of a 3-replica cluster (peers configured, multi-node mode). -/
def nodeThree : PBFTNode :=
  { nodeFour with total_nodes := 3, peers := ["n0", "n2"] }

/-- A single-node configuration (`total_nodes = 1`, no peers). -/
def nodeSolo : PBFTNode :=
  { nodeFour with node_id := 0, total_nodes := 1, peers := [], sk := "sk0" }

/-- A PREPARE for digest `"d"` from node 2 in view 0 whose signature passes
the mock check (`sha256(public_key + "prepare:d:0")`). -/
def prepWire : WireMsg :=
  { phase := "prepare", digest := "d", node_id := 2,
    signature := sha256hex ("pk2" ++ "prepare:d:0"), timestamp := 5,
    view := 0, public_key := "pk2" }

/-- A COMMIT for digest `"d"` from node 2 in view 0, validly mock-signed. -/
def commitWire : WireMsg :=
  { prepWire with
    phase := "commit", signature := sha256hex ("pk2" ++ "commit:d:0") }

/-- A PREPARE for digest `"d9"` carrying view 5 (≠ the replica's view 0),
validly mock-signed over its own view. -/
def staleWire : WireMsg :=
  { prepWire with
    digest := "d9", view := 5,
    signature := sha256hex ("pk2" ++ "prepare:d9:5") }

/-- A PRE_PREPARE for digest `"d"` from node 2 (not the primary of view 0),
validly mock-signed. -/
def ppWire : WireMsg :=
  { prepWire with
    phase := "pre_prepare",
    signature := sha256hex ("pk2" ++ "pre_prepare:d:0") }

/-- Two single-node-mode PREPARE messages identical except for their
`signature` and `public_key` fields. -/
def soloWireA : WireMsg :=
  { phase := "prepare", digest := "d", node_id := 0, signature := "sigA",
    timestamp := 5, view := 0, public_key := "pkA" }

/-- Second of the pair: same message, different signature and public key. -/
def soloWireB : WireMsg :=
  { soloWireA with signature := "sigB", public_key := "pkB" }

/-- tpm_attest.py lines 17-23: the `AttestationQuote` dataclass. -/
structure AttestationQuote where
  pcr_values : List (Nat × Bytes)
  nonce : Bytes
  signature : Bytes
  timestamp : Int
  is_valid : Bool
deriving DecidableEq

/-- tpm_attest.py lines 26-44: the `TPMManager` configuration consumed by
`verify_quote` — the simulation flag and the baseline PCR map. -/
structure TPMManager where
  use_simulation : Bool
  baseline_pcrs : List (Nat × Bytes)
deriving DecidableEq

/-- ASCII string literal as a byte string (for the key tags `b"tmp_key_"`
and `b"hw_tmp_"`). -/
def strBytes (s : String) : Bytes := Bytes.raw (s.toList.map Char.toNat)

/-- Insert into an ascending list of PCR indices. -/
def insertAsc (x : Nat) : List Nat → List Nat
  | [] => [x]
  | y :: t => if x ≤ y then x :: y :: t else y :: insertAsc x t

/-- Python `sorted` on a list of PCR indices. -/
def sortAsc (l : List Nat) : List Nat := l.foldr insertAsc []

/-- `b"".join` of a list of byte strings. -/
def catList : List Bytes → Bytes
  | [] => Bytes.raw []
  | x :: rest => Bytes.cat x (catList rest)

/-- tpm_attest.py line 155: `expected_data = b"".join([quote.nonce] +
[quote.pcr_values[pcr] for pcr in sorted(quote.pcr_values.keys())])`. -/
def quote_data (q : AttestationQuote) : Bytes :=
  catList (q.nonce ::
    (sortAsc (q.pcr_values.map Prod.fst)).map
      (fun k => (alGet q.pcr_values k).getD (Bytes.raw [])))

/-- tpm_attest.py lines 157-160: the recomputed quote signature —
`sha256(b"tmp_key_" + expected_data)` in simulation, `sha256(b"hw_tmp_" +
expected_data)` on hardware. -/
def quoteExpectedSig (t : TPMManager) (q : AttestationQuote) : Bytes :=
  Bytes.sha256
    (Bytes.cat (strBytes (if t.use_simulation then "tmp_key_" else "hw_tmp_"))
      (quote_data q))

/-- tpm_attest.py lines 148-152: the PCR comparison loop of `verify_quote` —
returns false (here: `true` = some mismatch) when any baseline PCR that is
present in the quote differs from its baseline value. -/
def pcrMismatch (baseline vals : List (Nat × Bytes)) : Bool :=
  baseline.any (fun pv =>
    match alGet vals pv.1 with
    | some w => w != pv.2
    | none => false)

/-- tpm_attest.py lines 136-162: `verify_quote` with the default
`expected_pcrs = baseline_pcrs`.  Rejects on timestamp skew above 5 minutes
(300000 ms), then on any sampled-PCR deviation from the baseline, then
compares the quote signature with the recomputed one. -/
def verify_quote (t : TPMManager) (now : Int) (q : AttestationQuote) : Bool :=
  if 300000 < (now - q.timestamp).natAbs then false
  else if pcrMismatch t.baseline_pcrs q.pcr_values then false
  else q.signature == quoteExpectedSig t q

/-- tpm_attest.py lines 164-172: `get_node_trust_level` — `"untrusted"` when
`verify_quote` fails, else `"trusted"`/`"suspicious"` by the quote's
`is_valid` flag. -/
def get_node_trust_level (t : TPMManager) (now : Int) (q : AttestationQuote) :
    String :=
  if verify_quote t now q = false then "untrusted"
  else if q.is_valid then "trusted" else "suspicious"

/-- A simulated TPM whose baseline holds PCR 0 = `raw [1]`. -/
def tpmSim : TPMManager :=
  { use_simulation := true, baseline_pcrs := [(0, Bytes.raw [1])] }

/-- A quote sampling PCR 0 with a value deviating from the baseline
(`raw [2]` vs `raw [1]`), before its signature is attached. -/
def devQuote0 : AttestationQuote :=
  { pcr_values := [(0, Bytes.raw [2])], nonce := Bytes.raw [9],
    signature := Bytes.raw [], timestamp := 0, is_valid := false }

/-- The deviating quote carrying the correctly recomputed signature over its
own PCR values, with a fresh timestamp. -/
def devQuote : AttestationQuote :=
  { devQuote0 with signature := quoteExpectedSig tpmSim devQuote0 }

/-- node.py lines 68-73: the node.py `BLSManager` key,
`f"node_{node_id}_key"` (the NUL padding of `ljust(32, b'\x00')` is a fixed
suffix, elided in the string model). -/
def nodePyKey (node_id : Nat) : String :=
  "node_" ++ toString node_id ++ "_key"

/-- node.py line 73: `BLSManager.sign` — `sha256(private_key + message)`. -/
def nodePySign (node_id : Nat) (msg : String) : String :=
  sha256hex (nodePyKey node_id ++ msg)

/-- node.py lines 407-417: the PRE-PREPARE dict built by
`initiate_consensus` (field `type` renamed `mtype`). -/
structure NodePyMsg where
  mtype : String
  view : Nat
  sequence : Nat
  digest : String
  node_id : Nat
  signature : String
  timestamp : Nat
deriving DecidableEq

/-- node.py lines 49-56: the consensus-relevant part of the module-level
`consensus_state` dict. -/
structure NodeConsensusState where
  view : Nat
  sequence_number : Nat
deriving DecidableEq

/-- node.py lines 193-195: module-level `is_primary()` —
`(consensus_state['view'] % TOTAL_NODES) == NODE_ID`. -/
def nodePyIsPrimary (st : NodeConsensusState) (totalNodes nodeId : Nat) :
    Bool :=
  st.view % totalNodes == nodeId

/-- node.py lines 401-421: `initiate_consensus` — non-primaries return
without emitting; the primary bumps `sequence_number` and builds a
PRE-PREPARE whose signature is over `f"pre_prepare:{merkle_root_val}"`,
with no view component. -/
def initiate_consensus (st : NodeConsensusState) (totalNodes nodeId : Nat)
    (clock : Nat) (merkle_root_val : String) :
    NodeConsensusState × Option NodePyMsg :=
  if nodePyIsPrimary st totalNodes nodeId = false then (st, none)
  else
    let st1 := { st with sequence_number := st.sequence_number + 1 }
    (st1, some
      { mtype := "pre_prepare", view := st1.view,
        sequence := st1.sequence_number, digest := merkle_root_val,
        node_id := nodeId,
        signature := nodePySign nodeId ("pre_prepare:" ++ merkle_root_val),
        timestamp := clock })

/-- Sanity check of the embedding on spec scenario S1: the three-leaf root is
`node(node(leaf a, leaf b), leaf c)` — the odd third leaf is promoted
unchanged to level 1 and paired there. -/
theorem merkle_root_three :
    merkle_root threeLeaves =
      hash_node (hash_node (hash_leaf (Bytes.raw [97])) (hash_leaf (Bytes.raw [98])))
        (hash_leaf (Bytes.raw [99])) := by decide

/-- C1: evaluation of the code at the failing input.  On the three-leaf
sequence with preimages `"a"`, `"b"`, `"c"`, `merkle_proof(s, 2)` is the
length-1 proof `[hash_node (leaf a) (leaf b)]` — but `verify_proof` applied
to that very proof, the computed root, and index 2 returns `false`: the
generator emits no entry for the promoted level-0 position and halves the
index, while the verifier consumes the single entry at index parity 2 (even)
and hashes the leaf on the left, yielding `node(leaf c, node(leaf a, leaf b))`
instead of the root `node(node(leaf a, leaf b), leaf c)`. -/
theorem C1_merkle_proof_soundness_fails :
    merkle_proof threeLeaves 2 =
      some [hash_node (hash_leaf (Bytes.raw [97]))
        (hash_leaf (Bytes.raw [98]))] ∧
    verify_proof (Bytes.raw [99])
      [hash_node (hash_leaf (Bytes.raw [97])) (hash_leaf (Bytes.raw [98]))]
      (merkle_root threeLeaves) 2 = false := by decide

/-- C2 counterexample: on a 4-replica backup (quorum 3), ten validly signed
PREPAREs from the single sender node 2 drive the tally for digest `"d"` to
cardinality 10 — not 1 — and latch the `prepared` flag by themselves. -/
theorem C2_counterexample :
    (alGetD (applyWires nodeFour (List.replicate 10 prepWire)).prepare_messages
        "d" []).length = 10 ∧
    "d" ∈ (applyWires nodeFour (List.replicate 10 prepWire)).prepared_digests
    := by decide

/-- C3 counterexample: three validly signed COMMITs (quorum 3) latch
`committed` for digest `"d"` on a replica that has received no PREPARE at
all, so `committed` holds while `prepared` does not. -/
theorem C3_counterexample :
    "d" ∈ (applyWires nodeFour (List.replicate 3 commitWire)).committed_digests
      ∧
    "d" ∉ (applyWires nodeFour (List.replicate 3 commitWire)).prepared_digests
    := by decide

/-- C4 counterexample: in the 4-replica cluster at view 0, the replica that
is itself the primary (node 0) receives a validly signed PRE_PREPARE from
node 2 ≠ primary(0) = 0 — and broadcasts a PREPARE for it, because the source
guard `not is_primary and sender != primary` does not fire on the primary. -/
theorem C4_counterexample :
    ppWire.node_id ≠ nodeFourPrimary.view % nodeFourPrimary.total_nodes ∧
    single_node_mode nodeFourPrimary = false ∧
    (handle_message nodeFourPrimary ppWire).2 =
      [Output.sent
        { phase := Phase.prepare, digest := "d", node_id := 0,
          signature := mockSign "sk0" "prepare:d:0", timestamp := 1000,
          view := 0 }] := by decide

/-- C5 counterexample: a replica configured with N = 3 (peers present, so
multi-node mode) has `required_votes = 2*((3-1)//3)+1 = 1`, while the
claimed formula gives `⌊2(3-1)/3⌋+1 = 2`. -/
theorem C5_counterexample :
    required_votes nodeThree = 1 ∧
    2 * (nodeThree.total_nodes - 1) / 3 + 1 = 2 := by decide

/-- C6 counterexample: the PRE-PREPARE emitted by node.py's
`initiate_consensus` (single-node primary, view 0, digest `"ab"`) is signed
over `"pre_prepare:ab"`, which differs from a signature over the canonical
view-bearing string `"pre_prepare:ab:0"` that consensus.py signs and
verifies. -/
theorem C6_counterexample :
    ((initiate_consensus { view := 0, sequence_number := 0 } 1 0 1000
        "ab").2.map NodePyMsg.signature) =
      some (nodePySign 0 ("pre_prepare:" ++ "ab")) ∧
    nodePySign 0 ("pre_prepare:" ++ "ab") ≠
      nodePySign 0 (phaseSigInput
        { phase := Phase.pre_prepare, digest := "ab", node_id := 0,
          signature := "", timestamp := 1000, view := 0 }) := by decide

/-- C7 counterexample: a quote whose signature matches the recomputed one
over its own PCR values and whose timestamp is exactly current, but whose
sampled PCR 0 deviates from the baseline, is classified `"untrusted"` — not
`"suspicious"` — because `verify_quote` already fails on the PCR comparison. -/
theorem C7_counterexample :
    (devQuote.signature == quoteExpectedSig tpmSim devQuote) = true ∧
    ((0 : Int) - devQuote.timestamp).natAbs ≤ 300000 ∧
    alGet devQuote.pcr_values 0 = some (Bytes.raw [2]) ∧
    alGet tpmSim.baseline_pcrs 0 = some (Bytes.raw [1]) ∧
    get_node_trust_level tpmSim 0 devQuote = "untrusted" := by decide

/-- C8 counterexample: `merkle_proof` does not return the empty list for
negative indices — on a 2-leaf sequence, index −1 yields the non-empty proof
`[hash_leaf (raw [10])]` via Python negative indexing, and index −5 raises
IndexError (modelled `none`) instead of returning anything. -/
theorem C8_counterexample :
    merkle_proof twoLeaves (-1) = some [hash_leaf (Bytes.raw [10])] ∧
    merkle_proof twoLeaves (-5) = none := by decide

/-- C9 counterexample: a PREPARE carrying view 5, received by a replica at
view 0, is *not* dropped: its signature (over its own view) verifies and the
PREPARE tally for digest `"d9"` grows from empty to the one-element list
holding the stale-view message. -/
theorem C9_counterexample :
    staleWire.view ≠ nodeFour.view ∧
    alGetD nodeFour.prepare_messages "d9" [] = [] ∧
    alGetD (handle_message nodeFour staleWire).1.prepare_messages "d9" [] =
      [{ phase := Phase.prepare, digest := "d9", node_id := 2,
         signature := sha256hex ("pk2" ++ "prepare:d9:5"), timestamp := 5,
         view := 5 }] := by decide

/-- C10 counterexample: in single-node mode, two inbound PREPAREs identical
except for their `signature`/`public_key` fields do NOT drive the node to
identical states — the accepted message is stored verbatim in the PREPARE
tally, signature included, so the resulting states differ. -/
theorem C10_counterexample :
    single_node_mode nodeSolo = true ∧
    soloWireA.phase = soloWireB.phase ∧
    soloWireA.digest = soloWireB.digest ∧
    soloWireA.node_id = soloWireB.node_id ∧
    soloWireA.timestamp = soloWireB.timestamp ∧
    soloWireA.view = soloWireB.view ∧
    (handle_message nodeSolo soloWireA).1 ≠
      (handle_message nodeSolo soloWireB).1 := by decide

theorem alGet_alSet_self {κ α : Type} [DecidableEq κ] (l : List (κ × α))
    (k : κ) (v : α) : alGet (alSet l k v) k = some v := by
  induction l with
  | nil => simp [alSet, alGet]
  | cons h t ih =>
    obtain ⟨k2, v2⟩ := h
    by_cases hk : k2 = k <;> simp [alSet, alGet, hk, ih]

theorem handle_commit_fst_prepare (n : PBFTNode) (m : Message) :
    (handle_commit n m).1.prepare_messages = n.prepare_messages := by
  simp only [handle_commit]
  split <;> rfl

theorem handle_commit_fst_prepared (n : PBFTNode) (m : Message) :
    (handle_commit n m).1.prepared_digests = n.prepared_digests := by
  simp only [handle_commit]
  split <;> rfl

theorem broadcast_commit_fst_prepare (n : PBFTNode) (m : Message) :
    (broadcast_commit n m).1.prepare_messages = n.prepare_messages := by
  simp only [broadcast_commit]
  split
  · exact handle_commit_fst_prepare n m
  · rfl

theorem handle_prepare_append (n : PBFTNode) (m : Message) :
    (alGetD (handle_prepare n m).1.prepare_messages m.digest []).length =
      (alGetD n.prepare_messages m.digest []).length + 1 := by
  simp only [handle_prepare]
  split
  · rw [broadcast_commit_fst_prepare]
    simp [alGetD, alGet_alSet_self]
  · simp [alGetD, alGet_alSet_self]

/-- C2 amended: the PREPARE tally is a raw message list with no
sender-deduplication — every PREPARE handled for a digest, duplicate sender
or not, grows that digest's cardinality by exactly one (so ten PREPAREs from
one sender reach cardinality ten, and latch `prepared` once the count reaches
`required_votes`, as the counterexample shows concretely). -/
theorem C2_amended_no_dedup (n : PBFTNode) (m : Message) :
    (alGetD (handle_prepare n m).1.prepare_messages m.digest []).length =
      (alGetD n.prepare_messages m.digest []).length + 1 :=
  handle_prepare_append n m

/-- C4 amended: on a replica that is not itself the primary of the current
view (multi-node mode), a PRE_PREPARE from a sender other than
`primary(view) = view % total_nodes` is dropped with no state change and no
PREPARE (or any other message) emitted; the unamended claim fails only on a
replica that is itself the primary, which accepts PRE_PREPAREs from any
sender (see the counterexample). -/
theorem C4_amended_backup_refusal (n : PBFTNode) (w : WireMsg)
    (hs : single_node_mode n = false) (hp : is_primary n = false)
    (hph : w.phase = "pre_prepare")
    (hsend : w.node_id ≠ n.view % n.total_nodes) :
    handle_message n w = (n, []) := by
  have hparse : parsePhase "pre_prepare" = some Phase.pre_prepare := by decide
  simp only [handle_message, hph, hparse]
  split
  · rfl
  · simp only [handle_pre_prepare]
    rw [if_pos ⟨hs, hp, hsend⟩]

/-- C4 witness: the non-primary backup `nodeFour` (node 1, view 0) drops the
validly signed PRE_PREPARE from node 2 entirely. -/
theorem C4_amended_backup_refusal_witness :
    handle_message nodeFour ppWire = (nodeFour, []) :=
  C4_amended_backup_refusal nodeFour ppWire (by decide) (by decide) rfl
    (by decide)

theorem quorum_div_eq (N : Nat) (h3 : N % 3 ≠ 0) :
    2 * ((N - 1) / 3) + 1 = 2 * (N - 1) / 3 + 1 := by
  have h2 : N % 3 = 1 ∨ N % 3 = 2 := by omega
  have h30 : 0 < 3 := by norm_num
  rcases h2 with h | h
  · have hN : N - 1 = 3 * (N / 3) := by omega
    rw [hN, Nat.mul_div_cancel_left _ h30,
      show 2 * (3 * (N / 3)) = 3 * (2 * (N / 3)) by ring,
      Nat.mul_div_cancel_left _ h30]
  · have hN : N - 1 = 3 * (N / 3) + 1 := by omega
    rw [hN, show 2 * (3 * (N / 3) + 1) = 3 * (2 * (N / 3)) + 2 by ring,
      Nat.mul_add_div h30, Nat.mul_add_div h30]
    norm_num

/-- C5 amended: `required_votes` is 1 in single-node mode (total_nodes = 1 or
no peers) and `2*⌊(N−1)/3⌋+1` otherwise — a value that coincides with the
claimed `⌊2(N−1)/3⌋+1` exactly when N is not a multiple of 3 (at N ≡ 0 mod 3
the code is one vote short of the claimed formula, see the counterexample) —
and `handle_commit` latches `committed` for a digest exactly when it was
already latched or the COMMIT tally reaches `required_votes`. -/
theorem C5_amended_quorum (n : PBFTNode) (m : Message) :
    required_votes n =
      (if single_node_mode n then 1 else 2 * ((n.total_nodes - 1) / 3) + 1) ∧
    (single_node_mode n = false → ¬(3 ∣ n.total_nodes) →
      required_votes n = 2 * (n.total_nodes - 1) / 3 + 1) ∧
    (m.digest ∈ (handle_commit n m).1.committed_digests ↔
      m.digest ∈ n.committed_digests ∨
        required_votes n ≤ (alGetD n.commit_messages m.digest []).length + 1)
    := by
  refine ⟨rfl, ?_, ?_⟩
  · intro hs hd
    have h3 : n.total_nodes % 3 ≠ 0 := fun h => hd (Nat.dvd_of_mod_eq_zero h)
    simp only [required_votes, hs, Bool.false_eq_true, if_false]
    exact quorum_div_eq n.total_nodes h3
  · simp only [handle_commit]
    split
    · next hcond =>
      constructor
      · intro _
        refine Or.inr ?_
        have h1 := hcond.1
        simpa using h1
      · intro _
        exact List.mem_cons_self _ _
    · next hcond =>
      simp only [List.length_append, List.length_singleton, not_and,
        not_not] at hcond
      constructor
      · exact fun h => Or.inl h
      · rintro (h | h)
        · exact h
        · exact hcond (by simpa using h)

/-- C5 witness: instantiating the amended quorum theorem on the 4-replica
configuration, where the two formulas agree and give 3. -/
theorem C5_amended_quorum_witness :
    required_votes nodeFour = 2 * (nodeFour.total_nodes - 1) / 3 + 1 :=
  (C5_amended_quorum nodeFour
    { phase := Phase.commit, digest := "d", node_id := 2, signature := "s",
      timestamp := 0, view := 0 }).2.1 (by decide) (by decide)

/-- C9 amended: `handle_message` performs no comparison of the message's
`view` with the replica's current view — an inbound PREPARE whose view
differs from the replica's, but whose signature verifies over its *own*
`"prepare:<digest>:<view>"` string, is processed exactly like a current-view
message: the PREPARE tally for its digest grows by one (and the flags follow
the ordinary latch rules). -/
theorem C9_amended_stale_view_processed (n : PBFTNode) (w : WireMsg)
    (hs : single_node_mode n = false) (hph : w.phase = "prepare")
    (hview : w.view ≠ n.view)
    (hv : mockVerify w.public_key
      ("prepare:" ++ w.digest ++ ":" ++ toString w.view) w.signature = true) :
    (alGetD (handle_message n w).1.prepare_messages w.digest []).length =
      (alGetD n.prepare_messages w.digest []).length + 1 := by
  have hparse : parsePhase "prepare" = some Phase.prepare := by decide
  simp only [handle_message, hph, hparse]
  have hv2 : mockVerify w.public_key
      (phaseSigInput
        { phase := Phase.prepare, digest := w.digest, node_id := w.node_id,
          signature := w.signature, timestamp := w.timestamp,
          view := w.view }) w.signature = true := hv
  split
  · next hcond =>
    rw [hv2] at hcond
    exact absurd hcond.2 (by simp)
  · exact handle_prepare_append n _

/-- C9 witness: the stale-view PREPARE (view 5 at a view-0 replica) grows the
`"d9"` tally from 0 to 1. -/
theorem C9_amended_stale_view_processed_witness :
    (alGetD (handle_message nodeFour staleWire).1.prepare_messages
        "d9" []).length =
      (alGetD nodeFour.prepare_messages "d9" []).length + 1 :=
  C9_amended_stale_view_processed nodeFour staleWire (by decide) rfl
    (by decide) (by decide)

theorem handle_commit_mono (n : PBFTNode) (m : Message) :
    n.prepared_digests ⊆ (handle_commit n m).1.prepared_digests ∧
    n.committed_digests ⊆ (handle_commit n m).1.committed_digests := by
  simp only [handle_commit]
  split
  · exact ⟨fun x hx => hx, fun x hx => List.mem_cons_of_mem _ hx⟩
  · exact ⟨fun x hx => hx, fun x hx => hx⟩

theorem broadcast_commit_mono (n : PBFTNode) (m : Message) :
    n.prepared_digests ⊆ (broadcast_commit n m).1.prepared_digests ∧
    n.committed_digests ⊆ (broadcast_commit n m).1.committed_digests := by
  simp only [broadcast_commit]
  split
  · exact handle_commit_mono n m
  · exact ⟨fun x hx => hx, fun x hx => hx⟩

theorem handle_prepare_mono (n : PBFTNode) (m : Message) :
    n.prepared_digests ⊆ (handle_prepare n m).1.prepared_digests ∧
    n.committed_digests ⊆ (handle_prepare n m).1.committed_digests := by
  simp only [handle_prepare]
  split
  · constructor
    · intro x hx
      exact (broadcast_commit_mono _ _).1 (List.mem_cons_of_mem _ hx)
    · intro x hx
      exact (broadcast_commit_mono _ _).2 hx
  · exact ⟨fun x hx => hx, fun x hx => hx⟩

theorem broadcast_prepare_mono (n : PBFTNode) (m : Message) :
    n.prepared_digests ⊆ (broadcast_prepare n m).1.prepared_digests ∧
    n.committed_digests ⊆ (broadcast_prepare n m).1.committed_digests := by
  simp only [broadcast_prepare]
  split
  · exact handle_prepare_mono n m
  · exact ⟨fun x hx => hx, fun x hx => hx⟩

theorem handle_pre_prepare_mono (n : PBFTNode) (m : Message) :
    n.prepared_digests ⊆ (handle_pre_prepare n m).1.prepared_digests ∧
    n.committed_digests ⊆ (handle_pre_prepare n m).1.committed_digests := by
  simp only [handle_pre_prepare]
  split
  · exact ⟨fun x hx => hx, fun x hx => hx⟩
  · exact broadcast_prepare_mono { n with current_digest := some m.digest } _

/-- C3 amended: the `prepared` and `committed` flag sets are never reset —
every `handle_message` call only grows both — but `committed` does not imply
`prepared`: `handle_commit` latches `committed` on a quorum of COMMITs alone,
with no check of the `prepared` flag, so a replica that received COMMITs but
no PREPAREs commits unprepared (see the counterexample). -/
theorem C3_amended_flags_never_reset (n : PBFTNode) (w : WireMsg) :
    n.prepared_digests ⊆ (handle_message n w).1.prepared_digests ∧
    n.committed_digests ⊆ (handle_message n w).1.committed_digests := by
  unfold handle_message
  cases hpp : parsePhase w.phase with
  | none => exact ⟨fun x hx => hx, fun x hx => hx⟩
  | some ph =>
    dsimp only
    split
    · exact ⟨fun x hx => hx, fun x hx => hx⟩
    · cases ph with
      | pre_prepare => exact handle_pre_prepare_mono n _
      | prepare => exact handle_prepare_mono n _
      | commit => exact handle_commit_mono n _

theorem pcrMismatch_of_deviation (baseline vals : List (Nat × Bytes))
    (p : Nat) (v w : Bytes) (hb : (p, v) ∈ baseline)
    (hq : alGet vals p = some w) (hne : w ≠ v) :
    pcrMismatch baseline vals = true := by
  simp only [pcrMismatch, List.any_eq_true]
  refine ⟨(p, v), hb, ?_⟩
  simp [hq, bne_iff_ne, hne]

theorem verify_quote_false_of_mismatch (t : TPMManager) (now : Int)
    (q : AttestationQuote)
    (h : pcrMismatch t.baseline_pcrs q.pcr_values = true) :
    verify_quote t now q = false := by
  simp only [verify_quote]
  split
  · rfl
  · simp [h]

/-- C7 amended: `get_node_trust_level` returns `"suspicious"` exactly when
`verify_quote` passes but the quote's own `is_valid` flag is false; and a
quote whose sampled PCR deviates from the baseline is classified
`"untrusted"` — not `"suspicious"` — because `verify_quote` itself fails on
the PCR comparison (so `"untrusted"` covers bad signatures, skewed
timestamps, AND PCR deviations). -/
theorem C7_amended_trust_classification (t : TPMManager) (now : Int)
    (q : AttestationQuote) (p : Nat) (v w : Bytes) :
    (get_node_trust_level t now q = "suspicious" ↔
      verify_quote t now q = true ∧ q.is_valid = false) ∧
    ((p, v) ∈ t.baseline_pcrs → alGet q.pcr_values p = some w → w ≠ v →
      get_node_trust_level t now q = "untrusted") := by
  constructor
  · simp only [get_node_trust_level]
    cases hv : verify_quote t now q with
    | false => simp
    | true =>
      cases hval : q.is_valid with
      | false => simp
      | true => simp
  · intro hb hq hne
    have hm := pcrMismatch_of_deviation t.baseline_pcrs q.pcr_values p v w
      hb hq hne
    have hf := verify_quote_false_of_mismatch t now q hm
    simp [get_node_trust_level, hf]

/-- C7 witness: the deviating-but-correctly-signed fresh quote is classified
`"untrusted"` by the amended theorem at the concrete inputs. -/
theorem C7_amended_trust_classification_witness :
    get_node_trust_level tpmSim 0 devQuote = "untrusted" :=
  (C7_amended_trust_classification tpmSim 0 devQuote 0 (Bytes.raw [1])
    (Bytes.raw [2])).2 (by decide) (by decide) (by decide)

theorem pairUp_length : ∀ l : List Bytes, (pairUp l).length = (l.length + 1) / 2
  | [] => rfl
  | [_] => by
    simp only [pairUp, List.length_singleton]
  | _ :: _ :: rest => by
    simp only [pairUp, List.length_cons, pairUp_length rest]
    omega

theorem pyGet_isSome_of_lt {α : Type} (l : List α) (i : Int) (h0 : 0 ≤ i)
    (hlt : i < (l.length : Int)) : (pyGet l i).isSome = true := by
  have ht : i.toNat < l.length := by omega
  simp only [pyGet, if_pos h0]
  rw [List.get?_eq_get ht]
  rfl

theorem int_fdiv_two_ofNat (a : Nat) :
    Int.fdiv (a : Int) 2 = ((a / 2 : Nat) : Int) := by
  cases a with
  | zero => rfl
  | succ n => rfl

theorem int_fmod_two_ofNat (a : Nat) :
    Int.fmod (a : Int) 2 = ((a % 2 : Nat) : Int) := by
  cases a with
  | zero => rfl
  | succ n => rfl

theorem proofLoop_isSome : ∀ (fuel : Nat) (level : List Bytes) (idx : Int)
    (acc : List Bytes), 0 ≤ idx → idx < (level.length : Int) →
    (proofLoop fuel level idx acc).isSome = true
  | 0, _, _, _, _, _ => rfl
  | fuel + 1, level, idx, acc, h0, hlt => by
    obtain ⟨a, rfl⟩ : ∃ a : Nat, idx = (a : Int) :=
      ⟨idx.toNat, (Int.toNat_of_nonneg h0).symm⟩
    have ha : a < level.length := by exact_mod_cast hlt
    simp only [proofLoop]
    split
    · rfl
    · next hlen =>
      have hlen2 : 2 ≤ level.length := by omega
      have hrec0 : 0 ≤ Int.fdiv (a : Int) 2 := by
        rw [int_fdiv_two_ofNat]
        exact Int.ofNat_nonneg _
      have hrec1 : Int.fdiv (a : Int) 2 < ((pairUp level).length : Int) := by
        rw [int_fdiv_two_ofNat, pairUp_length]
        exact_mod_cast (by omega : a / 2 < (level.length + 1) / 2)
      have hstep : ∀ a2 : List Bytes,
          (proofLoop fuel (pairUp level) (Int.fdiv (a : Int) 2)
            a2).isSome = true :=
        fun a2 =>
          proofLoop_isSome fuel (pairUp level) (Int.fdiv (a : Int) 2) a2
            hrec0 hrec1
      by_cases hpar : Int.fmod (a : Int) 2 = 0
      · by_cases hin : (a : Int) + 1 < (level.length : Int)
        · obtain ⟨s, hs⟩ := Option.isSome_iff_exists.mp
            (pyGet_isSome_of_lt level ((a : Int) + 1) (by omega) hin)
          simp only [hpar, if_true, if_pos hin, hs, Option.map_some']
          exact hstep _
        · simp only [hpar, if_true, if_neg hin]
          exact hstep _
      · have hodd : a % 2 ≠ 0 := by
          intro h
          apply hpar
          rw [int_fmod_two_ofNat, h]
          rfl
        have hge1 : 1 ≤ a := by omega
        obtain ⟨s, hs⟩ := Option.isSome_iff_exists.mp
          (pyGet_isSome_of_lt level ((a : Int) - 1) (by omega) (by omega))
        simp only [if_neg hpar, hs, Option.map_some']
        exact hstep _

/-- C8 amended: `merkle_proof` returns the empty proof when the sequence is
empty or the index is at least its length, and raises no exception for any
non-negative index; but negative indices are NOT part of the guard — Python
negative indexing applies, so a negative index can produce a non-empty proof
(index −1) or an IndexError (index −5), as the counterexample shows.
`verify_proof` itself is a total Boolean function (its loop does no list
indexing) and returns false on mismatch, e.g. for a leaf that is not in the
tree with an empty proof. -/
theorem C8_amended_merkle_errors (leaves : List Bytes) (i : Int) :
    (leaves = [] ∨ (leaves.length : Int) ≤ i →
      merkle_proof leaves i = some []) ∧
    (0 ≤ i → (merkle_proof leaves i).isSome = true) ∧
    verify_proof (Bytes.raw [42]) [] (merkle_root twoLeaves) i = false := by
  refine ⟨?_, ?_, ?_⟩
  · intro h
    have hb : leaves.isEmpty ∨ (leaves.length : Int) ≤ i := by
      rcases h with h | h
      · exact Or.inl (by simp [h])
      · exact Or.inr h
    simp only [merkle_proof, if_pos hb]
  · intro h0
    by_cases hb : leaves.isEmpty ∨ (leaves.length : Int) ≤ i
    · have hg : merkle_proof leaves i = some [] := by
        simp only [merkle_proof, if_pos hb]
      rw [hg]
      rfl
    · simp only [merkle_proof, if_neg hb]
      push_neg at hb
      apply proofLoop_isSome _ _ _ _ h0
      simp only [List.length_map]
      omega
  · rfl

/-- C8 witness: on the two-leaf sequence, index 5 (≥ length) yields the empty
proof, index 1 raises nothing, and the stray-leaf verification is false. -/
theorem C8_amended_merkle_errors_witness :
    merkle_proof twoLeaves 5 = some [] ∧
    (merkle_proof twoLeaves 1).isSome = true ∧
    verify_proof (Bytes.raw [42]) [] (merkle_root twoLeaves) 5 = false :=
  ⟨(C8_amended_merkle_errors twoLeaves 5).1 (Or.inr (by decide)),
   (C8_amended_merkle_errors twoLeaves 1).2.1 (by decide),
   (C8_amended_merkle_errors twoLeaves 5).2.2⟩

theorem parsePhase_value (s : String) (p : Phase) (h : parsePhase s = some p) :
    p.value = s := by
  unfold parsePhase at h
  split_ifs at h with h1 h2 h3
  · cases h
    rw [h1]
    rfl
  · cases h
    rw [h2]
    rfl
  · cases h
    rw [h3]
    rfl

/-- C6 amended: consensus.py's `PBFTNode` signs and verifies every phase
message over the view-bearing canonical string `"<phase>:<digest>:<view>"` —
the inbound gate drops any multi-node message whose signature is not the mock
signature over exactly that string, and the PREPARE emitted in response to an
accepted PRE_PREPARE is signed over `"prepare:<digest>:<view>"` — while
node.py's `initiate_consensus` signs its PRE-PREPARE over
`"pre_prepare:<digest>"`, with no view component after the digest (the two
paths disagree; see the counterexample). -/
theorem C6_amended_signing_inputs (n : PBFTNode) (w : WireMsg) (m : Message)
    (st : NodeConsensusState) (totalNodes nodeId clk : Nat) (d : String) :
    (single_node_mode n = false →
      mockVerify w.public_key
        (w.phase ++ ":" ++ w.digest ++ ":" ++ toString w.view)
        w.signature = false →
      handle_message n w = (n, [])) ∧
    (single_node_mode n = false → is_primary n = true →
      (handle_pre_prepare n m).2 =
        [Output.sent
          { phase := Phase.prepare, digest := m.digest, node_id := n.node_id,
            signature := mockSign n.sk
              ("prepare:" ++ m.digest ++ ":" ++ toString n.view),
            timestamp := n.clock, view := n.view }]) ∧
    (nodePyIsPrimary st totalNodes nodeId = true →
      (initiate_consensus st totalNodes nodeId clk d).2.map
          NodePyMsg.signature =
        some (nodePySign nodeId ("pre_prepare:" ++ d))) := by
  refine ⟨?_, ?_, ?_⟩
  · intro hs hv
    unfold handle_message
    cases hpp : parsePhase w.phase with
    | none => rfl
    | some ph =>
      have hv2 : mockVerify w.public_key
          (phaseSigInput
            { phase := ph, digest := w.digest, node_id := w.node_id,
              signature := w.signature, timestamp := w.timestamp,
              view := w.view }) w.signature = false := by
        simp only [phaseSigInput]
        rw [parsePhase_value w.phase ph hpp]
        exact hv
      dsimp only
      split
      · rfl
      · next hcond => exact absurd ⟨hs, hv2⟩ hcond
  · intro hs hp
    simp only [handle_pre_prepare]
    rw [if_neg (by rintro ⟨-, h2, -⟩; rw [hp] at h2; cases h2)]
    have hb : single_node_mode { n with current_digest := some m.digest } =
        false := hs
    simp [broadcast_prepare, hb]
  · intro hq
    simp [initiate_consensus, hq]

/-- C6 witness: on the primary of the 4-replica cluster, a badly signed
message is dropped and an accepted PRE_PREPARE yields a PREPARE signed over
the view-bearing string; node.py's single-node primary signs without the
view. -/
theorem C6_amended_signing_inputs_witness :
    handle_message nodeFourPrimary soloWireA = (nodeFourPrimary, []) ∧
    (handle_pre_prepare nodeFourPrimary
      { phase := Phase.pre_prepare, digest := "d", node_id := 2,
        signature := "s", timestamp := 0, view := 0 }).2 =
      [Output.sent
        { phase := Phase.prepare, digest := "d", node_id := 0,
          signature := mockSign "sk0" ("prepare:" ++ "d" ++ ":" ++
            toString (0 : Nat)),
          timestamp := 1000, view := 0 }] ∧
    (initiate_consensus { view := 0, sequence_number := 0 } 1 0 1000
        "ab").2.map NodePyMsg.signature =
      some (nodePySign 0 ("pre_prepare:" ++ "ab")) := by
  have T := C6_amended_signing_inputs nodeFourPrimary soloWireA
    { phase := Phase.pre_prepare, digest := "d", node_id := 2,
      signature := "s", timestamp := 0, view := 0 }
    { view := 0, sequence_number := 0 } 1 0 1000 "ab"
  exact ⟨T.1 (by decide) (by decide), T.2.1 (by decide) (by decide),
    T.2.2 (by decide)⟩

theorem alGet_eraseTally (l : List (String × List Message)) (k : String) :
    alGet (eraseTally l) k = (alGet l k).map (List.map eraseSig) := by
  induction l with
  | nil => rfl
  | cons h t ih =>
    obtain ⟨k2, v2⟩ := h
    by_cases hk : k2 = k <;> simp [eraseTally, alGet, hk, ih] <;>
      simp [eraseTally] at ih <;> exact ih

theorem alGetD_eraseTally (l : List (String × List Message)) (k : String) :
    alGetD (eraseTally l) k [] = (alGetD l k []).map eraseSig := by
  simp only [alGetD, alGet_eraseTally]
  cases alGet l k <;> rfl

theorem eraseTally_alSet (l : List (String × List Message)) (k : String)
    (v : List Message) :
    eraseTally (alSet l k v) = alSet (eraseTally l) k (v.map eraseSig) := by
  induction l with
  | nil => rfl
  | cons h t ih =>
    obtain ⟨k2, v2⟩ := h
    by_cases hk : k2 = k <;> simp [eraseTally, alSet, hk, ih] <;>
      simp [eraseTally] at ih <;> exact ih

theorem required_votes_update_cm (n : PBFTNode)
    (x : List (String × List Message)) :
    required_votes { n with commit_messages := x } = required_votes n := rfl

theorem required_votes_update_pm (n : PBFTNode)
    (x : List (String × List Message)) :
    required_votes { n with prepare_messages := x } = required_votes n := rfl

theorem handle_commit_erase_congr (na nb : PBFTNode) (m1 m2 : Message)
    (hn : erasePBFT na = erasePBFT nb) (hm : eraseSig m1 = eraseSig m2) :
    (erasePBFT (handle_commit na m1).1, eraseOuts (handle_commit na m1).2) =
    (erasePBFT (handle_commit nb m2).1, eraseOuts (handle_commit nb m2).2)
    := by
  have hn2 := hn
  simp only [erasePBFT, PBFTNode.mk.injEq] at hn2
  obtain ⟨hno, htot, hpeers, hview, hseq, hcurd, hpm, hcm, hprep, hcomm,
    hsk, hpk, hclock⟩ := hn2
  have hm2 := hm
  simp only [eraseSig, Message.mk.injEq, and_true, true_and] at hm2
  obtain ⟨hph, hd, hnid, hts, hvw⟩ := hm2
  have hreq : required_votes na = required_votes nb := by
    simp only [required_votes, single_node_mode, htot, hpeers]
  have hcur2 : List.map eraseSig (alGetD na.commit_messages m2.digest []) =
      List.map eraseSig (alGetD nb.commit_messages m2.digest []) := by
    rw [← alGetD_eraseTally, ← alGetD_eraseTally, hcm]
  have hlen : (alGetD na.commit_messages m2.digest []).length =
      (alGetD nb.commit_messages m2.digest []).length := by
    have h := congrArg List.length hcur2
    simpa using h
  have hguard : (required_votes na ≤
        (alGetD na.commit_messages m2.digest []).length + 1 ∧
        m2.digest ∉ na.committed_digests) ↔
      (required_votes nb ≤
        (alGetD nb.commit_messages m2.digest []).length + 1 ∧
        m2.digest ∉ nb.committed_digests) := by
    rw [hreq, hlen, hcomm]
  simp only [handle_commit, List.length_append, List.length_singleton,
    required_votes_update_cm]
  rw [hd]
  split
  · next hca =>
    rw [if_pos (hguard.mp hca)]
    simp only [erasePBFT, eraseOuts, eraseOut, eraseTally_alSet,
      List.map_append, List.map_cons, List.map_nil, Prod.mk.injEq,
      PBFTNode.mk.injEq, List.cons.injEq, Output.deliver.injEq,
      hno, htot, hpeers, hview, hseq, hcurd, hpm, hcm, hprep, hcomm,
      hsk, hpk, hclock, hcur2, hm, and_true, true_and, and_self]
  · next hca =>
    rw [if_neg (fun hcb => hca (hguard.mpr hcb))]
    simp only [erasePBFT, eraseOuts, eraseOut, eraseTally_alSet,
      List.map_append, List.map_cons, List.map_nil, Prod.mk.injEq,
      PBFTNode.mk.injEq, hno, htot, hpeers, hview, hseq, hcurd, hpm, hcm,
      hprep, hcomm, hsk, hpk, hclock, hcur2, hm, and_true, true_and,
      and_self]

theorem broadcast_commit_erase_congr (na nb : PBFTNode) (m1 m2 : Message)
    (hn : erasePBFT na = erasePBFT nb) (hm : eraseSig m1 = eraseSig m2) :
    (erasePBFT (broadcast_commit na m1).1,
      eraseOuts (broadcast_commit na m1).2) =
    (erasePBFT (broadcast_commit nb m2).1,
      eraseOuts (broadcast_commit nb m2).2) := by
  have hn2 := hn
  simp only [erasePBFT, PBFTNode.mk.injEq] at hn2
  obtain ⟨-, htot, hpeers, -, -, -, -, -, -, -, -, -, -⟩ := hn2
  have hsingle : single_node_mode nb = single_node_mode na := by
    simp only [single_node_mode, htot, hpeers]
  simp only [broadcast_commit, hsingle]
  cases hs : single_node_mode na with
  | true => exact handle_commit_erase_congr na nb m1 m2 hn hm
  | false =>
    simp only [Bool.false_eq_true, if_false, eraseOuts, eraseOut,
      List.map_cons, List.map_nil, Prod.mk.injEq]
    exact ⟨hn, by rw [hm]⟩

theorem handle_prepare_erase_congr (na nb : PBFTNode) (m1 m2 : Message)
    (hn : erasePBFT na = erasePBFT nb) (hm : eraseSig m1 = eraseSig m2) :
    (erasePBFT (handle_prepare na m1).1, eraseOuts (handle_prepare na m1).2) =
    (erasePBFT (handle_prepare nb m2).1, eraseOuts (handle_prepare nb m2).2)
    := by
  have hn2 := hn
  simp only [erasePBFT, PBFTNode.mk.injEq] at hn2
  obtain ⟨hno, htot, hpeers, hview, hseq, hcurd, hpm, hcm, hprep, hcomm,
    hsk, hpk, hclock⟩ := hn2
  have hm2 := hm
  simp only [eraseSig, Message.mk.injEq, and_true, true_and] at hm2
  obtain ⟨hph, hd, hnid, hts, hvw⟩ := hm2
  have hreq : required_votes na = required_votes nb := by
    simp only [required_votes, single_node_mode, htot, hpeers]
  have hcur2 : List.map eraseSig (alGetD na.prepare_messages m2.digest []) =
      List.map eraseSig (alGetD nb.prepare_messages m2.digest []) := by
    rw [← alGetD_eraseTally, ← alGetD_eraseTally, hpm]
  have hlen : (alGetD na.prepare_messages m2.digest []).length =
      (alGetD nb.prepare_messages m2.digest []).length := by
    have h := congrArg List.length hcur2
    simpa using h
  have hguard : (required_votes na ≤
        (alGetD na.prepare_messages m2.digest []).length + 1 ∧
        m2.digest ∉ na.prepared_digests) ↔
      (required_votes nb ≤
        (alGetD nb.prepare_messages m2.digest []).length + 1 ∧
        m2.digest ∉ nb.prepared_digests) := by
    rw [hreq, hlen, hprep]
  simp only [handle_prepare, List.length_append, List.length_singleton,
    required_votes_update_pm]
  rw [hd]
  split
  · next hca =>
    rw [if_pos (hguard.mp hca)]
    apply broadcast_commit_erase_congr
    · simp only [erasePBFT, eraseTally_alSet, List.map_append, List.map_cons,
        List.map_nil, PBFTNode.mk.injEq, hno, htot, hpeers, hview, hseq,
        hcurd, hpm, hcm, hprep, hcomm, hsk, hpk, hclock, hcur2, hm,
        and_true, true_and, and_self]
    · simp only [eraseSig, Message.mk.injEq, hno, hclock, hview, and_true,
        true_and, and_self]
  · next hca =>
    rw [if_neg (fun hcb => hca (hguard.mpr hcb))]
    simp only [erasePBFT, eraseOuts, eraseOut, eraseTally_alSet,
      List.map_append, List.map_cons, List.map_nil, Prod.mk.injEq,
      PBFTNode.mk.injEq, hno, htot, hpeers, hview, hseq, hcurd, hpm, hcm,
      hprep, hcomm, hsk, hpk, hclock, hcur2, hm, and_true, true_and,
      and_self]

theorem broadcast_prepare_erase_congr (na nb : PBFTNode) (m1 m2 : Message)
    (hn : erasePBFT na = erasePBFT nb) (hm : eraseSig m1 = eraseSig m2) :
    (erasePBFT (broadcast_prepare na m1).1,
      eraseOuts (broadcast_prepare na m1).2) =
    (erasePBFT (broadcast_prepare nb m2).1,
      eraseOuts (broadcast_prepare nb m2).2) := by
  have hn2 := hn
  simp only [erasePBFT, PBFTNode.mk.injEq] at hn2
  obtain ⟨-, htot, hpeers, -, -, -, -, -, -, -, -, -, -⟩ := hn2
  have hsingle : single_node_mode nb = single_node_mode na := by
    simp only [single_node_mode, htot, hpeers]
  simp only [broadcast_prepare, hsingle]
  cases hs : single_node_mode na with
  | true => exact handle_prepare_erase_congr na nb m1 m2 hn hm
  | false =>
    simp only [Bool.false_eq_true, if_false, eraseOuts, eraseOut,
      List.map_cons, List.map_nil, Prod.mk.injEq]
    exact ⟨hn, by rw [hm]⟩

theorem handle_pre_prepare_erase_congr (na nb : PBFTNode) (m1 m2 : Message)
    (hn : erasePBFT na = erasePBFT nb) (hm : eraseSig m1 = eraseSig m2) :
    (erasePBFT (handle_pre_prepare na m1).1,
      eraseOuts (handle_pre_prepare na m1).2) =
    (erasePBFT (handle_pre_prepare nb m2).1,
      eraseOuts (handle_pre_prepare nb m2).2) := by
  have hn2 := hn
  simp only [erasePBFT, PBFTNode.mk.injEq] at hn2
  obtain ⟨hno, htot, hpeers, hview, hseq, hcurd, hpm, hcm, hprep, hcomm,
    hsk, hpk, hclock⟩ := hn2
  have hm2 := hm
  simp only [eraseSig, Message.mk.injEq, and_true, true_and] at hm2
  obtain ⟨hph, hd, hnid, hts, hvw⟩ := hm2
  have hsingle : single_node_mode na = single_node_mode nb := by
    simp only [single_node_mode, htot, hpeers]
  have hprim : is_primary na = is_primary nb := by
    simp only [is_primary, hview, htot, hno]
  have hguard : (single_node_mode na = false ∧ is_primary na = false ∧
        m2.node_id ≠ na.view % na.total_nodes) ↔
      (single_node_mode nb = false ∧ is_primary nb = false ∧
        m2.node_id ≠ nb.view % nb.total_nodes) := by
    rw [hsingle, hprim, hview, htot]
  simp only [handle_pre_prepare]
  rw [hd, hnid]
  split
  · next hca =>
    rw [if_pos (hguard.mp hca)]
    simp only [eraseOuts, List.map_nil, Prod.mk.injEq]
    exact ⟨hn, trivial⟩
  · next hca =>
    rw [if_neg (fun hcb => hca (hguard.mpr hcb))]
    apply broadcast_prepare_erase_congr
    · simp only [erasePBFT, PBFTNode.mk.injEq, hno, htot, hpeers, hview,
        hseq, hcurd, hpm, hcm, hprep, hcomm, hsk, hpk, hclock, and_true,
        true_and, and_self]
    · simp only [eraseSig, Message.mk.injEq, hno, hclock, hview, and_true,
        true_and, and_self]

/-- C10 amended: in single-node mode `handle_message` performs no signature
verification, so acceptance is independent of the `signature` and
`public_key` fields: two inbound messages identical in every other field
drive the node to states that agree on everything except the raw signature
strings stored inside the PREPARE/COMMIT tallies (states are equal after
erasing those stored signatures), and produce outputs equal after the same
erasure.  The unamended claim fails only because the accepted message is
recorded verbatim — signature included — in the tally (see the
counterexample). -/
theorem C10_amended_sig_independent (n : PBFTNode) (w1 w2 : WireMsg)
    (hs : single_node_mode n = true)
    (h1 : w1.phase = w2.phase) (h2 : w1.digest = w2.digest)
    (h3 : w1.node_id = w2.node_id) (h4 : w1.timestamp = w2.timestamp)
    (h5 : w1.view = w2.view) :
    erasePBFT (handle_message n w1).1 = erasePBFT (handle_message n w2).1 ∧
    eraseOuts (handle_message n w1).2 = eraseOuts (handle_message n w2).2
    := by
  have hpair : (erasePBFT (handle_message n w1).1,
      eraseOuts (handle_message n w1).2) =
      (erasePBFT (handle_message n w2).1,
        eraseOuts (handle_message n w2).2) := by
    unfold handle_message
    rw [h1]
    cases hpp : parsePhase w2.phase with
    | none => rfl
    | some ph =>
      dsimp only
      rw [if_neg (by rintro ⟨hfalse, -⟩; rw [hs] at hfalse; cases hfalse),
        if_neg (by rintro ⟨hfalse, -⟩; rw [hs] at hfalse; cases hfalse)]
      have hme : eraseSig
          { phase := ph, digest := w1.digest, node_id := w1.node_id,
            signature := w1.signature, timestamp := w1.timestamp,
            view := w1.view } =
          eraseSig
          { phase := ph, digest := w2.digest, node_id := w2.node_id,
            signature := w2.signature, timestamp := w2.timestamp,
            view := w2.view } := by
        simp only [eraseSig, Message.mk.injEq, h2, h3, h4, h5, and_true,
          true_and, and_self]
      cases ph with
      | pre_prepare => exact handle_pre_prepare_erase_congr n n _ _ rfl hme
      | prepare => exact handle_prepare_erase_congr n n _ _ rfl hme
      | commit => exact handle_commit_erase_congr n n _ _ rfl hme
  have ha := congrArg Prod.fst hpair
  have hb := congrArg Prod.snd hpair
  exact ⟨ha, hb⟩

/-- C10 witness: the two single-node PREPAREs differing only in signature and
public key yield erasure-equal states and outputs on `nodeSolo`. -/
theorem C10_amended_sig_independent_witness :
    erasePBFT (handle_message nodeSolo soloWireA).1 =
      erasePBFT (handle_message nodeSolo soloWireB).1 ∧
    eraseOuts (handle_message nodeSolo soloWireA).2 =
      eraseOuts (handle_message nodeSolo soloWireB).2 :=
  C10_amended_sig_independent nodeSolo soloWireA soloWireB (by decide)
    rfl rfl rfl rfl rfl

/-- C3 witness: the monotonicity of both flag sets, instantiated on the
4-replica backup receiving a COMMIT. -/
theorem C3_amended_flags_never_reset_witness :
    nodeFour.prepared_digests ⊆
      (handle_message nodeFour commitWire).1.prepared_digests ∧
    nodeFour.committed_digests ⊆
      (handle_message nodeFour commitWire).1.committed_digests :=
  C3_amended_flags_never_reset nodeFour commitWire
